import Mathlib

/-!
Verification of the finance API service (FastAPI + SQLAlchemy).

The embedding models the database as lists of rows (one list per table)
and each HTTP endpoint as a pure function from the request data and the
current store to a response together with the updated store.  Timestamps
produced by `datetime.now()` / `func.now()` enter as an explicit `now`
argument; autoincrement primary keys enter as explicit fresh-id
arguments.  Calendar dates are triples (year, month, day) with the
proleptic-Gregorian day arithmetic that `timedelta(days=k)` and the SQL
`extract` function perform.
-/

namespace Api

/-- A calendar date (proleptic Gregorian), the claim-relevant part of a
`datetime` value. -/
structure Date where
  year : Int
  month : Int
  day : Int
deriving DecidableEq

/-- Day number of a civil date (days since 1970-01-01, Gregorian). -/
def daysFromCivil (dt : Date) : Int :=
  let y : Int := if dt.month ≤ 2 then dt.year - 1 else dt.year
  let era : Int := y / 400
  let yoe : Int := y - era * 400
  let mp : Int := if dt.month > 2 then dt.month - 3 else dt.month + 9
  let doy : Int := (153 * mp + 2) / 5 + dt.day - 1
  let doe : Int := yoe * 365 + yoe / 4 - yoe / 100 + doy
  era * 146097 + doe - 719468

/-- Civil date of a day number (inverse of `daysFromCivil`). -/
def civilFromDays (z0 : Int) : Date :=
  let z : Int := z0 + 719468
  let era : Int := z / 146097
  let doe : Int := z - era * 146097
  let yoe : Int := (doe - doe / 1460 + doe / 36524 - doe / 146096) / 365
  let y : Int := yoe + era * 400
  let doy : Int := doe - (365 * yoe + yoe / 4 - yoe / 100)
  let mp : Int := (5 * doy + 2) / 153
  let d : Int := doy - (153 * mp + 2) / 5 + 1
  let m : Int := if mp < 10 then mp + 3 else mp - 9
  ⟨if m ≤ 2 then y + 1 else y, m, d⟩

/-- `dt + timedelta(days = k)`. -/
def Date.addDays (dt : Date) (k : Int) : Date := civilFromDays (daysFromCivil dt + k)

/-- Strict order on dates by day number. -/
def Date.before (a b : Date) : Prop := daysFromCivil a < daysFromCivil b

instance (a b : Date) : Decidable (a.before b) := by
  unfold Date.before; infer_instance

/-- Row of the `Transactions` table (`app/models/transactions.py`).  The
`type` column is kept as a string, as in the model; amounts are modelled
as rationals (the schema declares `float`). -/
structure Txn where
  id : Nat
  user_id : Nat
  name : String
  amount : ℚ
  ty : String
  category : String
  date : Date
  created_at : Date
  updated_at : Option Date
deriving DecidableEq

/-- Row of the `reminders` table (`app/models/reminders.py`); `amount` is
an `Integer` column and `frequency` is an integer number of days. -/
structure Reminder where
  id : Nat
  user_id : Nat
  name : String
  active : Bool
  next_date : Date
  category : String
  amount : Int
  frequency : Int
  reminderDescription : Option String
  created_at : Date
  updated_at : Option Date
deriving DecidableEq

/-- Row of the `notifications` table (`app/models/notification.py`).  The
table stores no status column. -/
structure Notification where
  id : Nat
  reminder_id : Nat
  user_id : Nat
  date : Date
  name : String
  created_at : Date
  updated_at : Option Date
deriving DecidableEq

/-- The backing store: one list of rows per table. -/
structure DB where
  transactions : List Txn
  reminders : List Reminder
  notifications : List Notification
deriving DecidableEq

/-- Rows of each table carry pairwise-distinct primary keys. -/
def DB.WF (db : DB) : Prop :=
  db.transactions.Pairwise (fun a b => a.id ≠ b.id) ∧
  db.reminders.Pairwise (fun a b => a.id ≠ b.id) ∧
  db.notifications.Pairwise (fun a b => a.id ≠ b.id)

instance (db : DB) : Decidable db.WF := by
  unfold DB.WF; infer_instance

/-- `NotificationStatus` enum of `app/schemas/notification.py`. -/
inductive NotificationStatus where
  | pending
  | accepted
  | refused
  | extended
deriving DecidableEq

/-- `NotificationResponse` schema: what the notification endpoints
return.  `status` is not backed by a column, so serialising a row always
yields the declared default `pending`. -/
structure NotificationResponse where
  name : String
  reminder_id : Nat
  date : Option Date
  id : Nat
  status : NotificationStatus
  created_at : Date
  updated_at : Option Date
deriving DecidableEq

/-- Serialise a notification row through `NotificationResponse`
(`model_validate` over the row's attributes; `status` takes its schema
default `pending`). -/
def notificationSnapshot (n : Notification) : NotificationResponse :=
  ⟨n.name, n.reminder_id, some n.date, n.id, .pending, n.created_at, n.updated_at⟩

/-- `TransactionCreate` schema: all fields required; `type` is a plain
string. -/
structure TransactionCreate where
  name : String
  amount : ℚ
  ty : String
  category : String
  date : Date
deriving DecidableEq

/-- `ReminderCreate` schema. -/
structure ReminderCreate where
  name : String
  active : Bool
  next_date : Date
  category : String
  amount : Int
  frequency : Int
  reminderDescription : Option String
deriving DecidableEq

/-- `ReminderUpdate` schema: every field optional; `none` models a field
absent from the payload (`exclude_unset`). -/
structure ReminderUpdate where
  name : Option String
  active : Option Bool
  next_date : Option Date
  frequency : Option Int
  reminderDescription : Option String
  amount : Option Int
deriving DecidableEq

/-- `NotificationCreate` schema. -/
structure NotificationCreate where
  name : String
  reminder_id : Nat
  date : Option Date
deriving DecidableEq

/-- An `HTTPException`: status code and detail message. -/
structure Err where
  code : Nat
  detail : String
deriving DecidableEq

def notificationNotFound : Err := ⟨404, "Notification not found"⟩

def noReminderAssociated : Err := ⟨400, "No reminder associated with this notification"⟩

def transactionNotFound : Err := ⟨404, "Transaction not found or not owned by user"⟩

def reminderNotFound : Err := ⟨404, "Reminder not found"⟩

/-- The global exception handler of `app/main.py`: any uncaught
exception becomes a generic 500 response. -/
def internalServerError : Err := ⟨500, "Internal server error"⟩

/-- The in-memory sign coercion at the top of `create_transaction`
(`app/api/endpoints/transactions.py`, lines 34–43): it mutates
`transaction_in.amount`, comparing the plain-string `type` field against
the enum values `"outcome"` and `"income"`. -/
def signNormalization (ty : String) (amount : ℚ) : ℚ :=
  if ty == "outcome" && amount > 0 then -amount
  else if ty == "income" && amount < 0 then |amount|
  else amount

/-- `create_transaction` (`app/api/endpoints/transactions.py`): the sign
coercion runs on the in-memory payload, but the endpoint then evaluates
`transaction_in.type.value` with `type` declared as a plain `str`
(`app/schemas/transactions.py` defines no `TransactionType`), which
raises `AttributeError` before `db.add` is reached; the global handler
converts the uncaught exception into the generic 500 response.  No row
is ever inserted and the store is returned unchanged. -/
def createTransaction (_user : Nat) (tin : TransactionCreate) (_txId : Nat) (_now : Date)
    (db : DB) : Except Err Txn × DB :=
  let _normalized : ℚ := signNormalization tin.ty tin.amount
  (.error internalServerError, db)

/-- `convert_db_transaction_to_schema`: lower-case the stored type and
fall back to `income` when it is not a recognised enum value; every other
column (the amount included) is passed through unchanged. -/
def convertDbTransactionToSchema (t : Txn) : Txn :=
  let l := t.ty.toLower
  { t with ty := if l == "income" || l == "outcome" then l else "income" }

/-- `read_transaction`: first row matching id and owner, else 404. -/
def readTransaction (user tid : Nat) (db : DB) : Except Err Txn :=
  match db.transactions.find? (fun t => t.id == tid && t.user_id == user) with
  | none => .error transactionNotFound
  | some t => .ok (convertDbTransactionToSchema t)

/-- `delete_transaction`: 404 on missing/foreign id, else remove the row. -/
def deleteTransaction (user tid : Nat) (db : DB) : Except Err Unit × DB :=
  match db.transactions.find? (fun t => t.id == tid && t.user_id == user) with
  | none => (.error transactionNotFound, db)
  | some t =>
      (.ok (), { db with transactions := db.transactions.filter (fun x => x.id != t.id) })

/-- `create_reminder`: insert a row owned by the caller. -/
def createReminder (user : Nat) (rin : ReminderCreate) (rid : Nat) (now : Date)
    (db : DB) : Reminder × DB :=
  let r : Reminder :=
    ⟨rid, user, rin.name, rin.active, rin.next_date, rin.category, rin.amount,
      rin.frequency, rin.reminderDescription, now, none⟩
  (r, { db with reminders := db.reminders ++ [r] })

/-- `read_reminder`: first row matching id and owner, else 404. -/
def readReminder (user rid : Nat) (db : DB) : Except Err Reminder :=
  match db.reminders.find? (fun r => r.id == rid && r.user_id == user) with
  | none => .error reminderNotFound
  | some r => .ok r

/-- `setattr` loop of `update_reminder`: fields present in the payload
overwrite the row, the rest keep their stored values. -/
def applyReminderUpdate (upd : ReminderUpdate) (r : Reminder) : Reminder :=
  { r with
    name := upd.name.getD r.name
    active := upd.active.getD r.active
    next_date := upd.next_date.getD r.next_date
    frequency := upd.frequency.getD r.frequency
    reminderDescription :=
      match upd.reminderDescription with
      | some d => some d
      | none => r.reminderDescription
    amount := upd.amount.getD r.amount }

/-- `update_reminder`: 404 on missing/foreign id, else apply the payload
to the row (replacement by primary key). -/
def updateReminder (user rid : Nat) (upd : ReminderUpdate) (db : DB) :
    Except Err Reminder × DB :=
  match db.reminders.find? (fun r => r.id == rid && r.user_id == user) with
  | none => (.error reminderNotFound, db)
  | some r =>
      let r2 := applyReminderUpdate upd r
      (.ok r2,
        { db with reminders := db.reminders.map (fun x => if x.id == r.id then r2 else x) })

/-- `delete_reminder`: 404 on missing/foreign id, else remove the row and
return it. -/
def deleteReminder (user rid : Nat) (db : DB) : Except Err Reminder × DB :=
  match db.reminders.find? (fun r => r.id == rid && r.user_id == user) with
  | none => (.error reminderNotFound, db)
  | some r =>
      (.ok r, { db with reminders := db.reminders.filter (fun x => x.id != r.id) })

/-- `add_notification`: insert a row for the caller; a missing `date`
defaults to `datetime.now()`. -/
def addNotification (user : Nat) (nin : NotificationCreate) (nid : Nat) (now : Date)
    (db : DB) : Notification × DB :=
  let n : Notification := ⟨nid, nin.reminder_id, user, nin.date.getD now, nin.name, now, none⟩
  (n, { db with notifications := db.notifications ++ [n] })

/-- `notification_actions` (`app/api/endpoints/notifications.py`).
Looks up the caller's notification (404 when absent), then its reminder
through the `reminder_id` foreign key (400 when absent), snapshots the
row, and dispatches on the submitted status:
accepted — insert a payment transaction, advance the reminder, delete the
notification; refused — advance the reminder, delete the notification;
extended — push the notification date one day and refresh `updated_at`;
any other status — refresh `updated_at` only. -/
def notificationActions (user nid : Nat) (st : NotificationStatus) (now : Date)
    (txId : Nat) (db : DB) : Except Err NotificationResponse × DB :=
  match db.notifications.find? (fun n => n.id == nid && n.user_id == user) with
  | none => (.error notificationNotFound, db)
  | some n =>
    match db.reminders.find? (fun r => r.id == n.reminder_id) with
    | none => (.error noReminderAssociated, db)
    | some r =>
      let snapshot := notificationSnapshot n
      match st with
      | .accepted =>
          let newTx : Txn :=
            ⟨txId, user, "Payment for " ++ n.name, (r.amount : ℚ), "outcome",
              "Reminder Payment", now, now, none⟩
          let r2 := { r with next_date := r.next_date.addDays r.frequency }
          (.ok snapshot,
            { db with
              transactions := db.transactions ++ [newTx]
              reminders := db.reminders.map (fun x => if x.id == r.id then r2 else x)
              notifications := db.notifications.filter (fun x => x.id != n.id) })
      | .refused =>
          let r2 := { r with next_date := r.next_date.addDays r.frequency }
          (.ok snapshot,
            { db with
              reminders := db.reminders.map (fun x => if x.id == r.id then r2 else x)
              notifications := db.notifications.filter (fun x => x.id != n.id) })
      | .extended =>
          let n2 := { n with date := n.date.addDays 1, updated_at := some now }
          (.ok (notificationSnapshot n2),
            { db with
              notifications := db.notifications.map (fun x => if x.id == n.id then n2 else x) })
      | .pending =>
          let n2 := { n with updated_at := some now }
          (.ok (notificationSnapshot n2),
            { db with
              notifications := db.notifications.map (fun x => if x.id == n.id then n2 else x) })

/-- Python `round(x)` to an integer: nearest, ties to even. -/
def roundHalfEven (q : ℚ) : ℤ :=
  if q - ⌊q⌋ < 1 / 2 then ⌊q⌋
  else if 1 / 2 < q - ⌊q⌋ then ⌊q⌋ + 1
  else if ⌊q⌋ % 2 = 0 then ⌊q⌋ else ⌊q⌋ + 1

/-- Python `round(x, 2)`. -/
def round2 (q : ℚ) : ℚ := (roundHalfEven (100 * q) : ℚ) / 100

/-- The caller's rows of type `outcome` (the filter of both dashboard
queries). -/
def outcomeTxns (user : Nat) (db : DB) : List Txn :=
  db.transactions.filter (fun t => t.user_id == user && t.ty == "outcome")

/-- `GROUP BY category` with `SUM(amount)` over a row list: one group per
distinct category, carrying the summed amount. -/
def categoryGroups (txns : List Txn) : List (String × ℚ) :=
  ((txns.map (fun t => t.category)).dedup).map
    (fun c => (c, ((txns.filter (fun t => t.category == c)).map (fun t => t.amount)).sum))

/-- `get_transaction_categories_breakdown`: group the caller's outcome
transactions by category; empty result on no groups; equal shares
`round(1/n, 2)` when the absolute totals sum to zero; otherwise each
group's share `round(|total| / total_spending, 2)`. -/
def getTransactionCategoriesBreakdown (user : Nat) (db : DB) : List (String × ℚ) :=
  let groups := categoryGroups (outcomeTxns user db)
  let totalSpending : ℚ := (groups.map (fun g => |g.2|)).sum
  if groups.isEmpty then []
  else if totalSpending == 0 then
    groups.map (fun g => (g.1, round2 (1 / (groups.length : ℚ))))
  else
    groups.map (fun g => (g.1, round2 (|g.2| / totalSpending)))

/-- `calendar.month_name[m]`. -/
def monthName : Int → String
  | 1 => "January"
  | 2 => "February"
  | 3 => "March"
  | 4 => "April"
  | 5 => "May"
  | 6 => "June"
  | 7 => "July"
  | 8 => "August"
  | 9 => "September"
  | 10 => "October"
  | 11 => "November"
  | 12 => "December"
  | _ => ""

/-- One `result[month_num] = abs(total)` dictionary write, applied to one
entry of the month table. -/
def pointFill (g p : Int × ℚ) : Int × ℚ :=
  if p.1 == g.1 then (p.1, |g.2|) else p

/-- The fill loop of `get_monthly_spending`: write each month group's
absolute total over the zero-initialised month table. -/
def fillMonths (gs : List (Int × ℚ)) (acc : List (Int × ℚ)) : List (Int × ℚ) :=
  gs.foldl (fun a g => a.map (pointFill g)) acc

/-- The caller's outcome rows dated in the given year
(`extract('year', date) == year`). -/
def yearOutcomeTxns (user : Nat) (year : Int) (db : DB) : List Txn :=
  db.transactions.filter
    (fun t => t.user_id == user && t.ty == "outcome" && t.date.year == year)

/-- `get_monthly_spending`: group the caller's outcome rows of the year
by `extract('month', date)`, initialise months 1..12 to 0, overwrite the
months that have a group with the absolute total, then key by month
name. -/
def getMonthlySpending (user : Nat) (year : Int) (db : DB) : List (String × ℚ) :=
  let txns := yearOutcomeTxns user year db
  let months := (txns.map (fun t => t.date.month)).dedup
  let monthlyTotals := months.map
    (fun m => (m, ((txns.filter (fun t => t.date.month == m)).map (fun t => t.amount)).sum))
  let result0 : List (Int × ℚ) := (List.range 12).map (fun i : Nat => ((i : Int) + 1, 0))
  (fillMonths monthlyTotals result0).map (fun p => (monthName p.1, p.2))

/-- The store-mutating API operations (the read endpoints do not touch
the store). -/
inductive Op where
  | createTxn (user : Nat) (tin : TransactionCreate) (txId : Nat) (now : Date)
  | deleteTxn (user tid : Nat)
  | createRem (user : Nat) (rin : ReminderCreate) (rid : Nat) (now : Date)
  | updateRem (user rid : Nat) (upd : ReminderUpdate)
  | deleteRem (user rid : Nat)
  | addNotif (user : Nat) (nin : NotificationCreate) (nid : Nat) (now : Date)
  | notifAction (user nid : Nat) (st : NotificationStatus) (now : Date) (txId : Nat)

/-- Effect of an operation on the store. -/
def Op.step : Op → DB → DB
  | .createTxn user tin txId now, db => (createTransaction user tin txId now db).2
  | .deleteTxn user tid, db => (deleteTransaction user tid db).2
  | .createRem user rin rid now, db => (createReminder user rin rid now db).2
  | .updateRem user rid upd, db => (updateReminder user rid upd db).2
  | .deleteRem user rid, db => (deleteReminder user rid db).2
  | .addNotif user nin nid now, db => (addNotification user nin nid now db).2
  | .notifAction user nid st now txId, db => (notificationActions user nid st now txId db).2

/-! ## Lookup lemmas

`query(...).filter(id == k, user_id == u).first()` is `List.find?` on the
row list.  On stores whose rows have pairwise-distinct primary keys the
lookup is characterised by membership. -/

theorem find_key {α : Type} (key : α → Nat) (p : α → Bool) :
    ∀ l : List α, l.Pairwise (fun a b => key a ≠ key b) →
      ∀ x ∈ l, p x = true → (∀ y, p y = true → key y = key x) →
      l.find? p = some x := by
  intro l
  induction l with
  | nil => intro _ x hx; exact absurd hx (List.not_mem_nil x)
  | cons a l ih =>
    intro hw x hx hp hk
    rw [List.pairwise_cons] at hw
    obtain ⟨ha, hl⟩ := hw
    rcases List.mem_cons.mp hx with h | hxl
    · subst h
      exact List.find?_cons_of_pos _ hp
    · have hpa : ¬ p a = true := fun hpa => ha x hxl (hk a hpa)
      rw [List.find?_cons_of_neg _ (by simpa using hpa)]
      exact ih hl x hxl hp hk

theorem eq_of_mem_key {α : Type} (key : α → Nat) :
    ∀ l : List α, l.Pairwise (fun a b => key a ≠ key b) →
      ∀ x ∈ l, ∀ y ∈ l, key x = key y → x = y := by
  intro l
  induction l with
  | nil => intro _ x hx; exact absurd hx (List.not_mem_nil x)
  | cons a l ih =>
    intro hw x hx y hy hk
    rw [List.pairwise_cons] at hw
    obtain ⟨ha, hl⟩ := hw
    rcases List.mem_cons.mp hx with h | hxl <;> rcases List.mem_cons.mp hy with h2 | hyl
    · exact h.trans h2.symm
    · subst h; exact absurd hk (ha y hyl)
    · subst h2; exact absurd hk.symm (ha x hxl)
    · exact ih hl x hxl y hyl hk

theorem find_notification_eq (db : DB) (hwf : db.WF) (n : Notification)
    (hn : n ∈ db.notifications) (user nid : Nat) (hid : n.id = nid) (hu : n.user_id = user) :
    db.notifications.find? (fun m => m.id == nid && m.user_id == user) = some n := by
  refine find_key Notification.id _ db.notifications hwf.2.2 n hn ?_ ?_
  · simp [hid, hu]
  · intro y hy
    simp only [Bool.and_eq_true, beq_iff_eq] at hy
    rw [hy.1, hid]

theorem find_reminder_eq (db : DB) (hwf : db.WF) (r : Reminder)
    (hr : r ∈ db.reminders) (k : Nat) (hid : r.id = k) :
    db.reminders.find? (fun x => x.id == k) = some r := by
  refine find_key Reminder.id _ db.reminders hwf.2.1 r hr ?_ ?_
  · simp [hid]
  · intro y hy
    simp only [beq_iff_eq] at hy
    rw [hy, hid]

/-- A notification present in the store for its caller is never answered
with the 404 error by the resolution endpoint. -/
theorem notifActions_not_404_of_mem (user nid : Nat) (st : NotificationStatus)
    (now : Date) (txId : Nat) (db : DB) (n2 : Notification)
    (hmem : n2 ∈ db.notifications) (hid : n2.id = nid) (hu : n2.user_id = user) :
    (notificationActions user nid st now txId db).1 ≠ .error notificationNotFound := by
  unfold notificationActions
  cases hf : db.notifications.find? (fun m => m.id == nid && m.user_id == user) with
  | none =>
      exfalso
      have := List.find?_eq_none.mp hf _ hmem
      simp [hid, hu] at this
  | some m =>
      cases hf2 : db.reminders.find? (fun x => x.id == m.reminder_id) with
      | none => simp [hf2, notificationNotFound, noReminderAssociated]
      | some r2 => cases st <;> simp [hf2]

/-! ## Fixtures used by the concrete witnesses and counterexamples -/

def d0 : Date := ⟨2023, 12, 1⟩

def emptyDB : DB := ⟨[], [], []⟩

/-- A reminder matching the worked example of the specification:
amount −100, frequency 30 days, next occurrence 2024-01-01. -/
def remRent : Reminder :=
  ⟨1, 1, "Rent", true, ⟨2024, 1, 1⟩, "Housing", -100, 30, none, d0, none⟩

/-- A pending notification for `remRent`, owned by user 1. -/
def notifRent : Notification := ⟨1, 1, 1, ⟨2024, 1, 1⟩, "Rent", d0, none⟩

def dbRent : DB := ⟨[], [remRent], [notifRent]⟩

/-! ## Claims -/

/-- C1: accepting a notification whose reminder exists inserts exactly one
new transaction carrying the reminder's amount, type `outcome` and
category `"Reminder Payment"`, advances the reminder's `next_date` by
`frequency` days, deletes the notification, and answers with the
pre-deletion snapshot of the notification. -/
theorem c1_accept_resolution (user nid : Nat) (now : Date) (txId : Nat) (db : DB)
    (n : Notification) (r : Reminder) (hwf : db.WF)
    (hn : n ∈ db.notifications) (hnid : n.id = nid) (hnu : n.user_id = user)
    (hr : r ∈ db.reminders) (hrid : r.id = n.reminder_id) :
    notificationActions user nid .accepted now txId db =
      (.ok (notificationSnapshot n),
        { transactions := db.transactions ++
            [⟨txId, user, "Payment for " ++ n.name, (r.amount : ℚ), "outcome",
              "Reminder Payment", now, now, none⟩]
          reminders := db.reminders.map (fun x =>
            if x.id == r.id then { r with next_date := r.next_date.addDays r.frequency } else x)
          notifications := db.notifications.filter (fun x => x.id != n.id) }) ∧
    { r with next_date := r.next_date.addDays r.frequency } ∈
      (notificationActions user nid .accepted now txId db).2.reminders ∧
    ∀ m ∈ (notificationActions user nid .accepted now txId db).2.notifications, m.id ≠ n.id := by
  have hfn := find_notification_eq db hwf n hn user nid hnid hnu
  have hfr := find_reminder_eq db hwf r hr n.reminder_id hrid
  refine ⟨?_, ?_, ?_⟩
  · simp only [notificationActions, hfn, hfr]
  · simp only [notificationActions, hfn, hfr]
    exact List.mem_map.mpr ⟨r, hr, by simp⟩
  · intro m hm
    simp only [notificationActions, hfn, hfr] at hm
    have := (List.mem_filter.mp hm).2
    simpa using this

/-- C5: refusing a notification whose reminder exists advances the
reminder's `next_date` by `frequency` days and deletes the notification,
inserts no transaction, and answers with the same pre-deletion snapshot
that accepting would return. -/
theorem c5_refuse_resolution (user nid : Nat) (now : Date) (txId : Nat) (db : DB)
    (n : Notification) (r : Reminder) (hwf : db.WF)
    (hn : n ∈ db.notifications) (hnid : n.id = nid) (hnu : n.user_id = user)
    (hr : r ∈ db.reminders) (hrid : r.id = n.reminder_id) :
    notificationActions user nid .refused now txId db =
      (.ok (notificationSnapshot n),
        { transactions := db.transactions
          reminders := db.reminders.map (fun x =>
            if x.id == r.id then { r with next_date := r.next_date.addDays r.frequency } else x)
          notifications := db.notifications.filter (fun x => x.id != n.id) }) ∧
    (notificationActions user nid .refused now txId db).2.transactions = db.transactions ∧
    (notificationActions user nid .refused now txId db).1 =
      (notificationActions user nid .accepted now txId db).1 := by
  have hfn := find_notification_eq db hwf n hn user nid hnid hnu
  have hfr := find_reminder_eq db hwf r hr n.reminder_id hrid
  refine ⟨?_, ?_, ?_⟩ <;> simp only [notificationActions, hfn, hfr]

/-- Witness for C1, on the specification's worked example: reminder with
amount −100, frequency 30, next_date 2024-01-01; accepting creates one
transaction of amount −100, moves next_date to 2024-01-31, and deletes
the notification. -/
theorem c1_accept_witness :
    (notificationActions 1 1 .accepted d0 7 dbRent).1 = .ok (notificationSnapshot notifRent) ∧
    (notificationActions 1 1 .accepted d0 7 dbRent).2.transactions.map (fun t => t.amount) =
      [(-100 : ℚ)] ∧
    (notificationActions 1 1 .accepted d0 7 dbRent).2.reminders.map Reminder.next_date =
      [⟨2024, 1, 31⟩] ∧
    (notificationActions 1 1 .accepted d0 7 dbRent).2.notifications = [] := by
  have h := c1_accept_resolution 1 1 d0 7 dbRent notifRent remRent (by decide) (by decide)
    rfl rfl (by decide) rfl
  exact ⟨congrArg Prod.fst h.1, by decide, by decide, by decide⟩

/-- Witness for C5: refusing the same notification creates no
transaction, moves next_date to 2024-01-31, deletes the notification. -/
theorem c5_refuse_witness :
    (notificationActions 1 1 .refused d0 7 dbRent).1 = .ok (notificationSnapshot notifRent) ∧
    (notificationActions 1 1 .refused d0 7 dbRent).2.transactions = [] ∧
    (notificationActions 1 1 .refused d0 7 dbRent).2.reminders.map Reminder.next_date =
      [⟨2024, 1, 31⟩] ∧
    (notificationActions 1 1 .refused d0 7 dbRent).2.notifications = [] := by
  have h := c5_refuse_resolution 1 1 d0 7 dbRent notifRent remRent (by decide) (by decide)
    rfl rfl (by decide) rfl
  exact ⟨congrArg Prod.fst h.1, by decide, by decide, by decide⟩

/-- C6: resolving with `extended` pushes the notification's date one day
and refreshes `updated_at`, keeping the notification resolvable; any
other submitted status (`pending`) only refreshes `updated_at`. -/
theorem c6_extend_and_fallback (user nid : Nat) (now : Date) (txId : Nat) (db : DB)
    (n : Notification) (r : Reminder) (hwf : db.WF)
    (hn : n ∈ db.notifications) (hnid : n.id = nid) (hnu : n.user_id = user)
    (hr : r ∈ db.reminders) (hrid : r.id = n.reminder_id) :
    notificationActions user nid .extended now txId db =
      (.ok (notificationSnapshot { n with date := n.date.addDays 1, updated_at := some now }),
        { db with notifications := db.notifications.map (fun x =>
            if x.id == n.id then { n with date := n.date.addDays 1, updated_at := some now }
            else x) }) ∧
    ({ n with date := n.date.addDays 1, updated_at := some now } : Notification) ∈
      (notificationActions user nid .extended now txId db).2.notifications ∧
    (∀ st2 now2 txId2,
      (notificationActions user nid st2 now2 txId2
        (notificationActions user nid .extended now txId db).2).1 ≠
        .error notificationNotFound) ∧
    notificationActions user nid .pending now txId db =
      (.ok (notificationSnapshot { n with updated_at := some now }),
        { db with notifications := db.notifications.map (fun x =>
            if x.id == n.id then { n with updated_at := some now } else x) }) := by
  have hfn := find_notification_eq db hwf n hn user nid hnid hnu
  have hfr := find_reminder_eq db hwf r hr n.reminder_id hrid
  have hmem : ({ n with date := n.date.addDays 1, updated_at := some now } : Notification) ∈
      (notificationActions user nid .extended now txId db).2.notifications := by
    simp only [notificationActions, hfn, hfr]
    exact List.mem_map.mpr ⟨n, hn, by simp⟩
  refine ⟨?_, hmem, ?_, ?_⟩
  · simp only [notificationActions, hfn, hfr]
  · intro st2 now2 txId2
    exact notifActions_not_404_of_mem user nid st2 now2 txId2 _ _ hmem hnid hnu
  · simp only [notificationActions, hfn, hfr]

/-- Witness for C6: extending the example notification moves its date
from 2024-01-01 to 2024-01-02 and keeps it in the store; a `pending`
resolution leaves everything but `updated_at` unchanged. -/
theorem c6_extend_witness :
    (notificationActions 1 1 .extended d0 7 dbRent).2.notifications.map Notification.date =
      [⟨2024, 1, 2⟩] ∧
    (notificationActions 1 1 .extended d0 7 dbRent).2.notifications.map
      Notification.updated_at = [some d0] ∧
    (notificationActions 1 1 .pending d0 7 dbRent).2.notifications.map Notification.date =
      [⟨2024, 1, 1⟩] ∧
    (notificationActions 1 1 .pending d0 7 dbRent).1 =
      .ok (notificationSnapshot { notifRent with updated_at := some d0 }) := by
  have h := c6_extend_and_fallback 1 1 d0 7 dbRent notifRent remRent (by decide) (by decide)
    rfl rfl (by decide) rfl
  exact ⟨by decide, by decide, by decide, congrArg Prod.fst h.2.2.2⟩

/-- C7: resolution answers 404 exactly when the caller owns no
notification with the given id, 400 exactly when the notification exists
but no reminder row carries its `reminder_id`, succeeds otherwise, and on
either failure the store is left untouched. -/
theorem c7_resolution_errors (user nid : Nat) (st : NotificationStatus) (now : Date)
    (txId : Nat) (db : DB) (hwf : db.WF) :
    ((notificationActions user nid st now txId db).1 = .error notificationNotFound ↔
      ∀ n ∈ db.notifications, ¬(n.id = nid ∧ n.user_id = user)) ∧
    ((notificationActions user nid st now txId db).1 = .error noReminderAssociated ↔
      ∃ n ∈ db.notifications, (n.id = nid ∧ n.user_id = user) ∧
        ∀ r ∈ db.reminders, r.id ≠ n.reminder_id) ∧
    (∀ e, (notificationActions user nid st now txId db).1 = .error e →
      (notificationActions user nid st now txId db).2 = db ∧
      (e = notificationNotFound ∨ e = noReminderAssociated)) ∧
    ((∃ n ∈ db.notifications, (n.id = nid ∧ n.user_id = user) ∧
        ∃ r ∈ db.reminders, r.id = n.reminder_id) →
      ∃ resp, (notificationActions user nid st now txId db).1 = .ok resp) := by
  cases hf : db.notifications.find? (fun m => m.id == nid && m.user_id == user) with
  | none =>
    have hres : notificationActions user nid st now txId db = (.error notificationNotFound, db) := by
      unfold notificationActions; rw [hf]
    have hnone : ∀ n ∈ db.notifications, ¬(n.id = nid ∧ n.user_id = user) := by
      intro n hn hcontra
      have := List.find?_eq_none.mp hf n hn
      simp [hcontra.1, hcontra.2] at this
    refine ⟨?_, ?_, ?_, ?_⟩
    · exact ⟨fun _ => hnone, fun _ => congrArg Prod.fst hres⟩
    · constructor
      · intro h
        rw [hres] at h
        simp [notificationNotFound, noReminderAssociated] at h
      · rintro ⟨n, hn, ⟨hid, hu⟩, -⟩
        exact absurd ⟨hid, hu⟩ (hnone n hn)
    · intro e he
      exact ⟨congrArg Prod.snd hres, Or.inl (by rw [hres] at he; simpa using he.symm)⟩
    · rintro ⟨n, hn, ⟨hid, hu⟩, -⟩
      exact absurd ⟨hid, hu⟩ (hnone n hn)
  | some m =>
    have hmmem : m ∈ db.notifications := List.mem_of_find?_eq_some hf
    have hmp := List.find?_some hf
    simp only [Bool.and_eq_true, beq_iff_eq] at hmp
    cases hf2 : db.reminders.find? (fun x => x.id == m.reminder_id) with
    | none =>
      have hres : notificationActions user nid st now txId db = (.error noReminderAssociated, db) := by
        unfold notificationActions; rw [hf]; simp [hf2]
      have hnorem : ∀ r ∈ db.reminders, r.id ≠ m.reminder_id := by
        intro r hr hcontra
        have := List.find?_eq_none.mp hf2 r hr
        simp [hcontra] at this
      refine ⟨?_, ?_, ?_, ?_⟩
      · constructor
        · intro h
          rw [hres] at h
          simp [notificationNotFound, noReminderAssociated] at h
        · intro h
          exact absurd ⟨hmp.1, hmp.2⟩ (h m hmmem)
      · simp only [hres]
        constructor
        · intro _
          exact ⟨m, hmmem, ⟨hmp.1, hmp.2⟩, hnorem⟩
        · intro _; trivial
      · intro e he
        exact ⟨congrArg Prod.snd hres, Or.inr (by rw [hres] at he; simpa using he.symm)⟩
      · rintro ⟨n, hn, ⟨hid, hu⟩, r, hr, hrid⟩
        have hnm : n = m :=
          eq_of_mem_key Notification.id db.notifications hwf.2.2 n hn m hmmem
            (by rw [hid, hmp.1])
        subst hnm
        exact absurd hrid (hnorem r hr)
    | some r =>
      have hrmem : r ∈ db.reminders := List.mem_of_find?_eq_some hf2
      have hrp := List.find?_some hf2
      simp only [beq_iff_eq] at hrp
      have hok : ∃ resp, (notificationActions user nid st now txId db).1 = .ok resp := by
        cases st <;> (unfold notificationActions; rw [hf]; simp [hf2])
      obtain ⟨resp, hokr⟩ := hok
      refine ⟨?_, ?_, ?_, ?_⟩
      · rw [hokr]
        constructor
        · intro h; simp at h
        · intro h
          exact absurd ⟨hmp.1, hmp.2⟩ (h m hmmem)
      · rw [hokr]
        constructor
        · intro h; simp at h
        · rintro ⟨n, hn, ⟨hid, hu⟩, hall⟩
          have hnm : n = m :=
            eq_of_mem_key Notification.id db.notifications hwf.2.2 n hn m hmmem
              (by rw [hid, hmp.1])
          subst hnm
          exact absurd hrp (hall r hrmem)
      · intro e he
        rw [hokr] at he
        simp at he
      · intro _
        exact ⟨resp, hokr⟩

/-- Witness for C7, on a store where the error paths and the success path
are all exercised: a foreign id gives 404, an orphaned notification gives
400 with the store untouched, the intact one succeeds. -/
theorem c7_resolution_witness :
    ((notificationActions 2 1 .accepted d0 7 dbRent).1 = .error notificationNotFound ↔
      ∀ n ∈ dbRent.notifications, ¬(n.id = 1 ∧ n.user_id = 2)) ∧
    (∃ resp, (notificationActions 1 1 .accepted d0 7 dbRent).1 = .ok resp) := by
  have h2 := c7_resolution_errors 2 1 .accepted d0 7 dbRent (by decide)
  have h1 := c7_resolution_errors 1 1 .accepted d0 7 dbRent (by decide)
  exact ⟨h2.1, h1.2.2.2 ⟨notifRent, by decide, by decide, remRent, by decide, rfl⟩⟩

/-- C4: a caller targeting another user's transaction, reminder or
notification by id gets the same 404 not-found answer as for an id that
matches no row at all, with the store untouched; none of these paths
carries a 403 code. -/
theorem c4_cross_user_isolation (A B tid rid nid : Nat) (st : NotificationStatus)
    (now : Date) (txId : Nat) (upd : ReminderUpdate) (db : DB) (hAB : A ≠ B)
    (ht : ∀ t ∈ db.transactions, t.id = tid → t.user_id = B)
    (hr : ∀ r ∈ db.reminders, r.id = rid → r.user_id = B)
    (hn : ∀ n ∈ db.notifications, n.id = nid → n.user_id = B) :
    readTransaction A tid db = .error transactionNotFound ∧
    deleteTransaction A tid db = (.error transactionNotFound, db) ∧
    readReminder A rid db = .error reminderNotFound ∧
    updateReminder A rid upd db = (.error reminderNotFound, db) ∧
    deleteReminder A rid db = (.error reminderNotFound, db) ∧
    notificationActions A nid st now txId db = (.error notificationNotFound, db) ∧
    readTransaction A tid db = readTransaction A tid emptyDB ∧
    readReminder A rid db = readReminder A rid emptyDB ∧
    (updateReminder A rid upd db).1 = (updateReminder A rid upd emptyDB).1 ∧
    (notificationActions A nid st now txId db).1 =
      (notificationActions A nid st now txId emptyDB).1 ∧
    transactionNotFound.code = 404 ∧ reminderNotFound.code = 404 ∧
    notificationNotFound.code = 404 := by
  have hft : db.transactions.find? (fun t => t.id == tid && t.user_id == A) = none := by
    rw [List.find?_eq_none]
    intro t htm
    simp only [Bool.and_eq_true, beq_iff_eq, not_and]
    intro hid hu
    exact hAB (hu.symm.trans (ht t htm hid))
  have hfr : db.reminders.find? (fun r => r.id == rid && r.user_id == A) = none := by
    rw [List.find?_eq_none]
    intro r hrm
    simp only [Bool.and_eq_true, beq_iff_eq, not_and]
    intro hid hu
    exact hAB (hu.symm.trans (hr r hrm hid))
  have hfn : db.notifications.find? (fun n => n.id == nid && n.user_id == A) = none := by
    rw [List.find?_eq_none]
    intro n hnm
    simp only [Bool.and_eq_true, beq_iff_eq, not_and]
    intro hid hu
    exact hAB (hu.symm.trans (hn n hnm hid))
  refine ⟨?_, ?_, ?_, ?_, ?_, ?_, ?_, ?_, ?_, ?_, rfl, rfl, rfl⟩ <;>
    simp only [readTransaction, deleteTransaction, readReminder, updateReminder,
      deleteReminder, notificationActions, emptyDB, hft, hfr, hfn, List.find?_nil]

/-- Witness for C4: user 2 probing user 1's rows gets the not-found
answers. -/
theorem c4_cross_user_witness :
    readReminder 2 1 dbRent = .error reminderNotFound ∧
    (notificationActions 2 1 .refused d0 7 dbRent).2 = dbRent := by
  have h := c4_cross_user_isolation 2 1 5 1 1 .refused d0 7
    ⟨none, none, none, none, none, none⟩ dbRent (by decide) (by decide) (by decide)
    (by decide)
  exact ⟨h.2.2.1, congrArg Prod.snd h.2.2.2.2.2.1⟩

/-- Counterexample for C3: transaction creation never stores anything —
at the claim's own inputs (type `"outcome"` amount 7, where the claim
says −7 is stored; type `"expense"` amount 5, where it says 5 is stored)
the endpoint fails with the generic 500 before insert and the store
still holds no transaction at all. -/
theorem c3_sign_counterexample :
    createTransaction 1 ⟨"Coffee", 7, "outcome", "Food", d0⟩ 9 d0 emptyDB =
      (.error internalServerError, emptyDB) ∧
    (createTransaction 1 ⟨"Coffee", 7, "outcome", "Food", d0⟩ 9 d0
      emptyDB).2.transactions = [] ∧
    createTransaction 1 ⟨"Gym", 5, "expense", "Sport", d0⟩ 9 d0 emptyDB =
      (.error internalServerError, emptyDB) ∧
    internalServerError.code = 500 :=
  ⟨rfl, rfl, rfl, rfl⟩

/-- C3 (amended): every transaction-create call fails before insert with
the generic 500 — serialising the plain-string `type` raises before
`db.add` — leaving the store unchanged, so no amount, normalized or not,
is ever stored by this endpoint; the read conversion leaves stored
amounts untouched. -/
theorem c3_sign_normalization (user txId : Nat) (now : Date) (db : DB)
    (tin : TransactionCreate) :
    createTransaction user tin txId now db = (.error internalServerError, db) ∧
    (createTransaction user tin txId now db).2.transactions = db.transactions ∧
    internalServerError.code = 500 ∧
    ∀ t0 : Txn, (convertDbTransactionToSchema t0).amount = t0.amount :=
  ⟨rfl, rfl, rfl, fun _ => rfl⟩

/-- Witness for C3 (amended): a concrete create call with type
`"outcome"` and amount 7 fails with the 500 and leaves the empty store
empty. -/
theorem c3_sign_witness :
    createTransaction 1 ⟨"Hotel", 7, "outcome", "Travel", d0⟩ 3 d0 emptyDB =
      (.error internalServerError, emptyDB) :=
  (c3_sign_normalization 1 3 d0 emptyDB ⟨"Hotel", 7, "outcome", "Travel", d0⟩).1

/-- C10: the transaction inserted by accepting a notification is built
directly as a model row, bypassing the create endpoint's sign coercion:
the stored amount is the reminder's amount verbatim — when positive it
stays positive under type `"outcome"`, the opposite of what the coercion
would compute on the same data — the name is `"Payment for "` followed
by the notification's name, and the date is the creation time rather
than the notification's date or the reminder's next_date. -/
theorem c10_accept_bypasses_normalization (user nid : Nat) (now : Date) (txId : Nat)
    (db : DB) (n : Notification) (r : Reminder) (hwf : db.WF)
    (hn : n ∈ db.notifications) (hnid : n.id = nid) (hnu : n.user_id = user)
    (hr : r ∈ db.reminders) (hrid : r.id = n.reminder_id) :
    (notificationActions user nid .accepted now txId db).2.transactions =
      db.transactions ++
        [⟨txId, user, "Payment for " ++ n.name, (r.amount : ℚ), "outcome",
          "Reminder Payment", now, now, none⟩] ∧
    (0 < r.amount →
      ∃ t ∈ (notificationActions user nid .accepted now txId db).2.transactions,
        t.ty = "outcome" ∧ 0 < t.amount ∧ t.date = now ∧
        signNormalization t.ty t.amount = -t.amount) := by
  have hfn := find_notification_eq db hwf n hn user nid hnid hnu
  have hfr := find_reminder_eq db hwf r hr n.reminder_id hrid
  have htx : (notificationActions user nid .accepted now txId db).2.transactions =
      db.transactions ++
        [⟨txId, user, "Payment for " ++ n.name, (r.amount : ℚ), "outcome",
          "Reminder Payment", now, now, none⟩] := by
    simp only [notificationActions, hfn, hfr]
  refine ⟨htx, ?_⟩
  intro hpos
  have hq : (0 : ℚ) < (r.amount : ℚ) := by exact_mod_cast hpos
  refine ⟨⟨txId, user, "Payment for " ++ n.name, (r.amount : ℚ), "outcome",
    "Reminder Payment", now, now, none⟩, ?_, rfl, hq, rfl, ?_⟩
  · rw [htx]; exact List.mem_append_right _ (List.mem_singleton.mpr rfl)
  · simp [signNormalization, hq]

/-- A store holding a reminder with a positive amount and its pending
notification, for the C10 witness. -/
def remBonus : Reminder :=
  ⟨2, 1, "Bonus", true, ⟨2024, 3, 1⟩, "Salary", 50, 7, none, d0, none⟩

def notifBonus : Notification := ⟨2, 2, 1, ⟨2024, 3, 1⟩, "Bonus", d0, none⟩

def dbBonus : DB := ⟨[], [remBonus], [notifBonus]⟩

/-- Witness for C10: accepting a notification of a reminder with amount
+50 stores the transaction with amount +50 under type `outcome`, while
the create endpoint's in-memory coercion maps (outcome, 50) to −50. -/
theorem c10_accept_bypass_witness :
    (notificationActions 1 2 .accepted d0 7 dbBonus).2.transactions.map
      (fun t => (t.amount, t.ty, t.name, t.date)) =
      [((50 : ℚ), "outcome", "Payment for Bonus", d0)] ∧
    signNormalization "outcome" 50 = -50 := by
  have h := c10_accept_bypasses_normalization 1 2 d0 7 dbBonus notifBonus remBonus
    (by decide) (by decide) rfl rfl (by decide) rfl
  refine ⟨?_, by decide⟩
  rw [h.1]
  decide

/-- Payload setting only `next_date`, to a date before the stored one. -/
def updBack : ReminderUpdate := ⟨none, none, some ⟨2023, 12, 1⟩, none, none, none⟩

/-- Counterexample for C2: an ordinary reminder update moves `next_date`
from 2024-01-01 back to 2023-12-01, so `next_date` is not changed only by
accept/refuse resolution and can move backward. -/
theorem c2_counterexample :
    ((Op.updateRem 1 1 updBack).step dbRent).reminders.map Reminder.next_date =
      [⟨2023, 12, 1⟩] ∧
    dbRent.reminders.map Reminder.next_date = [⟨2024, 1, 1⟩] ∧
    Date.before ⟨2023, 12, 1⟩ ⟨2024, 1, 1⟩ :=
  ⟨by decide, by decide, by decide⟩

/-- C2 (amended): after any store-mutating operation, every reminder
either keeps a `next_date` already present, or got it from an
accept/refuse resolution (advance by exactly `frequency` days), or from a
reminder update whose payload carries `next_date` (an arbitrary value,
possibly earlier), or is a freshly created reminder. -/
theorem c2_next_date_provenance (op : Op) (db : DB) :
    ∀ r2 ∈ (op.step db).reminders,
      (∃ r ∈ db.reminders, r2.next_date = r.next_date) ∨
      (∃ user nid now txId, (op = Op.notifAction user nid .accepted now txId ∨
          op = Op.notifAction user nid .refused now txId) ∧
        ∃ r ∈ db.reminders, r2 = { r with next_date := r.next_date.addDays r.frequency }) ∨
      (∃ user rid upd, op = Op.updateRem user rid upd ∧ upd.next_date = some r2.next_date) ∨
      (∃ user rin rid now, op = Op.createRem user rin rid now ∧ r2.next_date = rin.next_date) := by
  intro r2 hr2
  cases op with
  | createTxn user tin txId now =>
      exact Or.inl ⟨r2, hr2, rfl⟩
  | deleteTxn user tid =>
      simp only [Op.step, deleteTransaction] at hr2
      cases hf : db.transactions.find? (fun t => t.id == tid && t.user_id == user) <;>
        rw [hf] at hr2 <;> exact Or.inl ⟨r2, hr2, rfl⟩
  | createRem user rin rid now =>
      simp only [Op.step, createReminder] at hr2
      rcases List.mem_append.mp hr2 with h | h
      · exact Or.inl ⟨r2, h, rfl⟩
      · have := List.mem_singleton.mp h
        subst this
        exact Or.inr (Or.inr (Or.inr ⟨user, rin, rid, now, rfl, rfl⟩))
  | updateRem user rid upd =>
      simp only [Op.step, updateReminder] at hr2
      cases hf : db.reminders.find? (fun r => r.id == rid && r.user_id == user) with
      | none =>
          rw [hf] at hr2
          exact Or.inl ⟨r2, hr2, rfl⟩
      | some r =>
          rw [hf] at hr2
          simp only [List.mem_map] at hr2
          obtain ⟨x, hx, hx2⟩ := hr2
          by_cases hxe : (x.id == r.id) = true
          · rw [if_pos hxe] at hx2
            cases hupd : upd.next_date with
            | none =>
                refine Or.inl ⟨r, List.mem_of_find?_eq_some hf, ?_⟩
                rw [← hx2]
                simp [applyReminderUpdate, hupd]
            | some v =>
                refine Or.inr (Or.inr (Or.inl ⟨user, rid, upd, rfl, ?_⟩))
                rw [← hx2]
                simp [applyReminderUpdate, hupd]
          · rw [if_neg hxe] at hx2
            exact Or.inl ⟨x, hx, hx2 ▸ rfl⟩
  | deleteRem user rid =>
      simp only [Op.step, deleteReminder] at hr2
      cases hf : db.reminders.find? (fun r => r.id == rid && r.user_id == user) <;>
        rw [hf] at hr2
      · exact Or.inl ⟨r2, hr2, rfl⟩
      · exact Or.inl ⟨r2, List.mem_of_mem_filter hr2, rfl⟩
  | addNotif user nin nid now =>
      exact Or.inl ⟨r2, hr2, rfl⟩
  | notifAction user nid st now txId =>
      simp only [Op.step, notificationActions] at hr2
      cases hf : db.notifications.find? (fun n => n.id == nid && n.user_id == user) with
      | none =>
          rw [hf] at hr2
          exact Or.inl ⟨r2, hr2, rfl⟩
      | some n =>
          simp only [hf] at hr2
          cases hf2 : db.reminders.find? (fun r => r.id == n.reminder_id) with
          | none =>
              simp only [hf2] at hr2
              exact Or.inl ⟨r2, hr2, rfl⟩
          | some r =>
              simp only [hf2] at hr2
              cases st with
              | pending => exact Or.inl ⟨r2, hr2, rfl⟩
              | extended => exact Or.inl ⟨r2, hr2, rfl⟩
              | accepted =>
                  simp only [List.mem_map] at hr2
                  obtain ⟨x, hx, hx2⟩ := hr2
                  by_cases hxe : (x.id == r.id) = true
                  · rw [if_pos hxe] at hx2
                    exact Or.inr (Or.inl ⟨user, nid, now, txId, Or.inl rfl,
                      r, List.mem_of_find?_eq_some hf2, hx2.symm⟩)
                  · rw [if_neg hxe] at hx2
                    exact Or.inl ⟨x, hx, hx2 ▸ rfl⟩
              | refused =>
                  simp only [List.mem_map] at hr2
                  obtain ⟨x, hx, hx2⟩ := hr2
                  by_cases hxe : (x.id == r.id) = true
                  · rw [if_pos hxe] at hx2
                    exact Or.inr (Or.inl ⟨user, nid, now, txId, Or.inr rfl,
                      r, List.mem_of_find?_eq_some hf2, hx2.symm⟩)
                  · rw [if_neg hxe] at hx2
                    exact Or.inl ⟨x, hx, hx2 ▸ rfl⟩

/-- The accept operation on the example store. -/
def opAcc : Op := Op.notifAction 1 1 .accepted d0 7

/-- The example reminder after one accept/refuse advance. -/
def remAdv : Reminder :=
  { remRent with next_date := remRent.next_date.addDays remRent.frequency }

/-- Witness for C2 (amended): on the example store the advanced reminder
produced by an accept is covered by the provenance disjunction. -/
theorem c2_provenance_witness :
    remAdv ∈ (opAcc.step dbRent).reminders ∧
    ((∃ r ∈ dbRent.reminders, remAdv.next_date = r.next_date) ∨
      (∃ user nid now txId, (opAcc = Op.notifAction user nid .accepted now txId ∨
          opAcc = Op.notifAction user nid .refused now txId) ∧
        ∃ r ∈ dbRent.reminders, remAdv = { r with next_date := r.next_date.addDays r.frequency }) ∨
      (∃ user rid upd, opAcc = Op.updateRem user rid upd ∧
        upd.next_date = some remAdv.next_date) ∨
      (∃ user rin rid now, opAcc = Op.createRem user rin rid now ∧
        remAdv.next_date = rin.next_date)) :=
  ⟨by decide, c2_next_date_provenance opAcc dbRent remAdv (by decide)⟩

/-! ## Rounding and list-sum lemmas for the dashboard endpoints -/

theorem roundHalfEven_close (q : ℚ) : |(roundHalfEven q : ℚ) - q| ≤ 1 / 2 := by
  have h0 : ((⌊q⌋ : ℚ)) ≤ q := Int.floor_le q
  have h1 : q < ⌊q⌋ + 1 := Int.lt_floor_add_one q
  unfold roundHalfEven
  split_ifs with h h2 h3
  · rw [abs_le]; constructor <;> linarith
  · rw [not_lt] at h
    rw [abs_le]; push_cast; constructor <;> linarith
  · rw [not_lt] at h h2
    rw [abs_le]; constructor <;> linarith
  · rw [not_lt] at h h2
    rw [abs_le]; push_cast; constructor <;> linarith

theorem round2_close (q : ℚ) : |round2 q - q| ≤ 1 / 200 := by
  have h := roundHalfEven_close (100 * q)
  have he : round2 q - q = ((roundHalfEven (100 * q) : ℚ) - 100 * q) / 100 := by
    unfold round2; ring
  rw [he, abs_div]
  rw [show |(100 : ℚ)| = 100 by norm_num]
  linarith

theorem list_sum_map_div {α : Type} (l : List α) (f : α → ℚ) (c : ℚ) :
    (l.map (fun x => f x / c)).sum = (l.map f).sum / c := by
  induction l with
  | nil => simp
  | cons a l ih => simp [ih, add_div]

theorem list_sum_map_sub {α : Type} (l : List α) (f g : α → ℚ) :
    (l.map (fun x => f x - g x)).sum = (l.map f).sum - (l.map g).sum := by
  induction l with
  | nil => simp
  | cons a l ih => simp only [List.map_cons, List.sum_cons, ih]; ring

theorem list_abs_sum_le {α : Type} (l : List α) (f : α → ℚ) :
    |(l.map f).sum| ≤ (l.map (fun x => |f x|)).sum := by
  induction l with
  | nil => simp
  | cons a l ih =>
    simp only [List.map_cons, List.sum_cons]
    exact (abs_add _ _).trans (by linarith)

theorem list_sum_le_length_mul {α : Type} (l : List α) (f : α → ℚ) (c : ℚ)
    (h : ∀ x ∈ l, f x ≤ c) :
    (l.map f).sum ≤ l.length * c := by
  induction l with
  | nil => simp
  | cons a l ih =>
    simp only [List.map_cons, List.sum_cons, List.length_cons]
    have h1 := h a (List.mem_cons_self a l)
    have h2 := ih (fun x hx => h x (List.mem_cons_of_mem a hx))
    push_cast
    linarith

/-- C8: the category breakdown is empty when the caller has no outcome
transactions; assigns every present category the equal share
`round(1/n, 2)` when all per-category sums are zero; and otherwise
assigns each category `round(|sum| / total, 2)`, a family of values whose
sum differs from 1 by at most `n/200` (each of the `n` rounded shares is
off by at most 1/200). -/
theorem c8_categories_breakdown (user : Nat) (db : DB) :
    (outcomeTxns user db = [] → getTransactionCategoriesBreakdown user db = []) ∧
    (categoryGroups (outcomeTxns user db) ≠ [] →
      (∀ g ∈ categoryGroups (outcomeTxns user db), g.2 = 0) →
      getTransactionCategoriesBreakdown user db =
        (categoryGroups (outcomeTxns user db)).map
          (fun g => (g.1,
            round2 (1 / ((categoryGroups (outcomeTxns user db)).length : ℚ))))) ∧
    (((categoryGroups (outcomeTxns user db)).map (fun g => |g.2|)).sum ≠ 0 →
      getTransactionCategoriesBreakdown user db =
        (categoryGroups (outcomeTxns user db)).map
          (fun g => (g.1, round2 (|g.2| /
            ((categoryGroups (outcomeTxns user db)).map (fun g => |g.2|)).sum))) ∧
      |((getTransactionCategoriesBreakdown user db).map (fun p => p.2)).sum - 1| ≤
        ((categoryGroups (outcomeTxns user db)).length : ℚ) / 200) := by
  refine ⟨?_, ?_, ?_⟩
  · intro h
    simp only [getTransactionCategoriesBreakdown]
    rw [h]
    rfl
  · intro hne hz
    have hT : ((categoryGroups (outcomeTxns user db)).map (fun g => |g.2|)).sum = 0 := by
      apply List.sum_eq_zero
      intro x hx
      obtain ⟨g, hg, hgx⟩ := List.mem_map.mp hx
      rw [← hgx, hz g hg, abs_zero]
    simp only [getTransactionCategoriesBreakdown]
    rw [hT]
    simp [List.isEmpty_iff, hne]
  · intro hTne
    have hne : categoryGroups (outcomeTxns user db) ≠ [] := by
      intro h
      exact hTne (by rw [h]; rfl)
    have hres : getTransactionCategoriesBreakdown user db =
        (categoryGroups (outcomeTxns user db)).map
          (fun g => (g.1, round2 (|g.2| /
            ((categoryGroups (outcomeTxns user db)).map (fun g => |g.2|)).sum))) := by
      simp only [getTransactionCategoriesBreakdown]
      rw [if_neg (by simp [List.isEmpty_iff, hne]), if_neg (by simp [hTne])]
    refine ⟨hres, ?_⟩
    have hvals : (getTransactionCategoriesBreakdown user db).map (fun p => p.2) =
        (categoryGroups (outcomeTxns user db)).map
          (fun g => round2 (|g.2| /
            ((categoryGroups (outcomeTxns user db)).map (fun g => |g.2|)).sum)) := by
      rw [hres, List.map_map]
      rfl
    have hsum : ((categoryGroups (outcomeTxns user db)).map
        (fun g => |g.2| /
          ((categoryGroups (outcomeTxns user db)).map (fun g => |g.2|)).sum)).sum = 1 := by
      rw [list_sum_map_div]
      exact div_self hTne
    rw [hvals]
    calc |((categoryGroups (outcomeTxns user db)).map
            (fun g => round2 (|g.2| /
              ((categoryGroups (outcomeTxns user db)).map (fun g => |g.2|)).sum))).sum - 1|
        = |((categoryGroups (outcomeTxns user db)).map
            (fun g => round2 (|g.2| /
              ((categoryGroups (outcomeTxns user db)).map (fun g => |g.2|)).sum) -
              |g.2| /
              ((categoryGroups (outcomeTxns user db)).map (fun g => |g.2|)).sum)).sum| := by
          rw [list_sum_map_sub, hsum]
      _ ≤ ((categoryGroups (outcomeTxns user db)).map
            (fun g => |round2 (|g.2| /
              ((categoryGroups (outcomeTxns user db)).map (fun g => |g.2|)).sum) -
              |g.2| /
              ((categoryGroups (outcomeTxns user db)).map (fun g => |g.2|)).sum|)).sum :=
          list_abs_sum_le _ _
      _ ≤ ((categoryGroups (outcomeTxns user db)).length : ℚ) * (1 / 200) :=
          list_sum_le_length_mul _ _ _ (fun g _ => round2_close _)
      _ = ((categoryGroups (outcomeTxns user db)).length : ℚ) / 200 := by ring

/-- Outcome transactions of one caller in two categories: Food sums to
−40, Fun to −10, so the shares are 0.8 and 0.2. -/
def dbCat : DB :=
  ⟨[⟨1, 1, "a", -30, "outcome", "Food", d0, d0, none⟩,
    ⟨2, 1, "b", -10, "outcome", "Fun", d0, d0, none⟩,
    ⟨3, 1, "c", -10, "outcome", "Food", d0, d0, none⟩], [], []⟩

/-- Witness for C8: on `dbCat` total spending is 50 (nonzero), the
groups are Fun −10 and Food −40, and the two rounded shares sum to 1
within 2/200. -/
theorem c8_categories_witness :
    categoryGroups (outcomeTxns 1 dbCat) = [("Fun", -10), ("Food", -40)] ∧
    ((categoryGroups (outcomeTxns 1 dbCat)).map (fun g => |g.2|)).sum ≠ 0 ∧
    |((getTransactionCategoriesBreakdown 1 dbCat).map (fun p => p.2)).sum - 1| ≤
      ((categoryGroups (outcomeTxns 1 dbCat)).length : ℚ) / 200 := by
  have hgroups : categoryGroups (outcomeTxns 1 dbCat) = [("Fun", -10), ("Food", -40)] := by
    have houtcome : outcomeTxns 1 dbCat =
        [⟨1, 1, "a", -30, "outcome", "Food", d0, d0, none⟩,
          ⟨2, 1, "b", -10, "outcome", "Fun", d0, d0, none⟩,
          ⟨3, 1, "c", -10, "outcome", "Food", d0, d0, none⟩] := rfl
    simp only [categoryGroups, houtcome, List.map_cons, List.map_nil]
    simp [List.dedup_cons_of_mem, List.dedup_cons_of_not_mem, List.filter_cons]
    norm_num
  have hTne : ((categoryGroups (outcomeTxns 1 dbCat)).map (fun g => |g.2|)).sum ≠ 0 := by
    rw [hgroups]
    norm_num
  exact ⟨hgroups, hTne, ((c8_categories_breakdown 1 dbCat).2.2 hTne).2⟩

/-! ## The dictionary-fill loop of the monthly dashboard -/

theorem fillMonths_eq_map (gs : List (Int × ℚ)) :
    ∀ acc : List (Int × ℚ),
      fillMonths gs acc = acc.map (fun p => gs.foldl (fun q g => pointFill g q) p) := by
  induction gs with
  | nil => intro acc; simp [fillMonths]
  | cons g gs ih =>
    intro acc
    have h1 : fillMonths (g :: gs) acc = fillMonths gs (acc.map (pointFill g)) := rfl
    rw [h1, ih, List.map_map]
    rfl

theorem foldl_fill_months (fn : Int → ℚ) (months : List Int) :
    months.Nodup → ∀ m v,
      ((months.map (fun m2 => (m2, fn m2))).foldl (fun q g => pointFill g q) (m, v)) =
        if m ∈ months then (m, |fn m|) else (m, v) := by
  induction months with
  | nil => intro _ m v; simp
  | cons a ms ih =>
    intro hnd m v
    obtain ⟨ha, hnd2⟩ := List.nodup_cons.mp hnd
    rw [List.map_cons, List.foldl_cons]
    by_cases hma : m = a
    · subst hma
      have h1 : pointFill (m, fn m) (m, v) = (m, |fn m|) := by simp [pointFill]
      rw [h1, ih hnd2]
      simp
    · have h1 : pointFill (a, fn a) (m, v) = (m, v) := by simp [pointFill, hma]
      rw [h1, ih hnd2]
      simp [List.mem_cons, hma]

/-- C9: the monthly spending result has exactly twelve entries, one per
calendar month name, each carrying the absolute value of the summed
outcome amounts of the caller dated in that month of the year (months
without transactions carry 0). -/
theorem c9_monthly_spending (user : Nat) (year : Int) (db : DB) :
    (getMonthlySpending user year db).length = 12 ∧
    getMonthlySpending user year db = (List.range 12).map (fun i : Nat =>
      (monthName ((i : Int) + 1),
        |(((yearOutcomeTxns user year db).filter
            (fun t => t.date.month == (i : Int) + 1)).map (fun t => t.amount)).sum|)) := by
  have hnd : ((yearOutcomeTxns user year db).map (fun t => t.date.month)).dedup.Nodup :=
    List.nodup_dedup _
  have hmain : getMonthlySpending user year db = (List.range 12).map (fun i : Nat =>
      (monthName ((i : Int) + 1),
        |(((yearOutcomeTxns user year db).filter
            (fun t => t.date.month == (i : Int) + 1)).map (fun t => t.amount)).sum|)) := by
    simp only [getMonthlySpending]
    rw [fillMonths_eq_map, List.map_map, List.map_map]
    apply List.map_congr_left
    intro i _
    simp only [Function.comp_apply]
    rw [foldl_fill_months _ _ hnd]
    by_cases hm : ((i : Int) + 1) ∈
        ((yearOutcomeTxns user year db).map (fun t => t.date.month)).dedup
    · rw [if_pos hm]
    · rw [if_neg hm]
      have hfilter : (yearOutcomeTxns user year db).filter
          (fun t => t.date.month == (i : Int) + 1) = [] := by
        rw [List.filter_eq_nil_iff]
        intro t ht
        simp only [beq_iff_eq]
        intro heq
        exact hm (List.mem_dedup.mpr (List.mem_map.mpr ⟨t, ht, heq⟩))
      rw [hfilter]
      simp
  exact ⟨by rw [hmain]; simp, hmain⟩

/-- Outcome transactions of user 1 in January and March 2024, plus an
outcome row of another year and an income row, which the dashboard must
ignore. -/
def dbMonthly : DB :=
  ⟨[⟨1, 1, "jan1", -20, "outcome", "Food", ⟨2024, 1, 5⟩, d0, none⟩,
    ⟨2, 1, "jan2", -10, "outcome", "Fun", ⟨2024, 1, 20⟩, d0, none⟩,
    ⟨3, 1, "mar", -7, "outcome", "Food", ⟨2024, 3, 2⟩, d0, none⟩,
    ⟨4, 1, "past", -99, "outcome", "Food", ⟨2023, 1, 5⟩, d0, none⟩,
    ⟨5, 1, "pay", 50, "income", "Salary", ⟨2024, 1, 7⟩, d0, none⟩], [], []⟩

/-- Witness for C9: on `dbMonthly` the 2024 dashboard has twelve entries
with January 30, March 7 and February 0. -/
theorem c9_monthly_witness :
    (getMonthlySpending 1 2024 dbMonthly).length = 12 ∧
    ("January", (30 : ℚ)) ∈ getMonthlySpending 1 2024 dbMonthly ∧
    ("March", (7 : ℚ)) ∈ getMonthlySpending 1 2024 dbMonthly ∧
    ("February", (0 : ℚ)) ∈ getMonthlySpending 1 2024 dbMonthly := by
  have h := c9_monthly_spending 1 2024 dbMonthly
  have htx : yearOutcomeTxns 1 2024 dbMonthly =
      [⟨1, 1, "jan1", -20, "outcome", "Food", ⟨2024, 1, 5⟩, d0, none⟩,
        ⟨2, 1, "jan2", -10, "outcome", "Fun", ⟨2024, 1, 20⟩, d0, none⟩,
        ⟨3, 1, "mar", -7, "outcome", "Food", ⟨2024, 3, 2⟩, d0, none⟩] := rfl
  refine ⟨h.1, ?_, ?_, ?_⟩ <;> rw [h.2] <;> refine List.mem_map.mpr ?_
  · exact ⟨0, by simp, by rw [htx]; norm_num [monthName, List.filter_cons]⟩
  · exact ⟨2, by simp, by rw [htx]; norm_num [monthName, List.filter_cons]⟩
  · exact ⟨1, by simp, by rw [htx]; norm_num [monthName, List.filter_cons]⟩

end Api
